import Mathlib

/-!
# Verification of the auto-update pipeline in `src/main.py`

This file is a shallow embedding of the update pipeline of the repository
(`UpdateChecker.run` / `UpdateChecker.is_newer_version`, `UpdateDownloader.run`,
`MainWindow.install_update` in `src/main.py`) together with proofs of the
specified properties.

Modelling conventions:
* Python exceptions are modelled with `Except`/`Option`; a `try/except` block
  becomes a `match` on the modelled failure point.
* The network, the filesystem and process spawning are collaborators: each
  `run` method is embedded as a pure function from an explicit environment
  (the responses and failures the collaborators would produce) to the list
  of Qt signals it emits, plus (for the downloader) the resulting file-system
  state, modelled as a map from paths to file sizes.
* Python `int(s)` is modelled by `pyInt` (ASCII whitespace stripping, an
  optional sign, decimal digits with single underscores between digits).
* Python list comparison (`latest_parts > current_parts`) is modelled by the
  three-way lexicographic comparison `pyCmp`.
-/

/-- ASCII whitespace as stripped by Python's `int(str)` conversion
(space, tab, newline, carriage return, vertical tab, form feed). -/
def pyIsSpace (c : Char) : Bool :=
  c = ' ' || c = '\t' || c = '\n' || c = '\r' || c = '\x0b' || c = '\x0c'

/-- Value of a digit character. -/
def digitVal (c : Char) : Nat := c.toNat - 48

/-- Continuation of a Python decimal literal after its first digit:
digits, with single underscores allowed only between digits. -/
def pyDigitsAux : Nat → List Char → Option Nat
  | acc, [] => some acc
  | acc, c :: cs =>
    if c.isDigit then pyDigitsAux (10 * acc + digitVal c) cs
    else if c = '_' then
      match cs with
      | [] => none
      | d :: cs' => if d.isDigit then pyDigitsAux (10 * acc + digitVal d) cs' else none
    else none

/-- A Python decimal literal body: nonempty, starts with a digit,
underscores only between digits. -/
def pyDigits : List Char → Option Nat
  | [] => none
  | c :: cs => if c.isDigit then pyDigitsAux (digitVal c) cs else none

/-- Strip leading and trailing ASCII whitespace. -/
def pyStrip (cs : List Char) : List Char :=
  ((cs.dropWhile pyIsSpace).reverse.dropWhile pyIsSpace).reverse

/-- Model of Python's `int(s)` for a string argument: strip whitespace, read an
optional sign, then a decimal literal (ASCII digits; Python additionally
accepts unicode digits and unicode whitespace, which none of the verified
claims exercise).  `none` models a raised `ValueError`. -/
def pyInt (s : String) : Option Int :=
  match pyStrip s.toList with
  | '+' :: rest => (pyDigits rest).map (fun n => (n : Int))
  | '-' :: rest => (pyDigits rest).map (fun n => -(n : Int))
  | rest => (pyDigits rest).map (fun n => (n : Int))

/-- Three-way lexicographic comparison of integer lists; this is the semantics
of Python's `<`/`>` on lists of ints (first differing element decides; a
proper prefix is smaller). -/
def pyCmp : List Int → List Int → Ordering
  | [], [] => .eq
  | [], _ :: _ => .lt
  | _ :: _, [] => .gt
  | a :: as, b :: bs => if a < b then .lt else if b < a then .gt else pyCmp as bs

/-- Pad an integer list with trailing zeros to length `n`
(`parts.extend([0] * (max_len - len(parts)))` in the source). -/
def padTo (l : List Int) (n : Nat) : List Int :=
  l ++ List.replicate (n - l.length) 0

/-- The Python `ValueError` message raised by `int(seg)` on a bad literal. -/
def intErrMsg (seg : String) : String :=
  "invalid literal for int() with base 10: '" ++ seg ++ "'"

/-- Split a character list at every `'.'`, keeping empty segments — the
semantics of Python's `s.split('.')` (so `"".split('.') == ['']` and
`"a..b".split('.') == ['a', '', 'b']`). -/
def splitDot : List Char → List (List Char)
  | [] => [[]]
  | c :: cs =>
    if c = '.' then [] :: splitDot cs
    else
      match splitDot cs with
      | [] => [[c]]
      | seg :: rest => (c :: seg) :: rest

/-- Python's `s.split('.')` on strings. -/
def pySplitDot (s : String) : List String :=
  (splitDot s.toList).map (fun cs => ⟨cs⟩)

/-- `[int(x) for x in segs]`: parse every segment, raising (modelled as
`Except.error`) at the first bad one. -/
def parseSegs : List String → Except String (List Int)
  | [] => .ok []
  | seg :: rest =>
    match pyInt seg with
    | none => .error (intErrMsg seg)
    | some k =>
      match parseSegs rest with
      | .error e => .error e
      | .ok ks => .ok (k :: ks)

/-- `[int(x) for x in s.split('.')]` — the version parser used by
`UpdateChecker.is_newer_version` (the spec's `VersionComparator.parse`). -/
def parseVersion (s : String) : Except String (List Int) :=
  parseSegs (pySplitDot s)

/-- `UpdateChecker.is_newer_version` (src/main.py:65-75): parse both dotted
strings, pad the shorter with zeros, and evaluate Python's
`latest_parts > current_parts`.  A `ValueError` from `int` propagates as
`Except.error` (it is caught by `UpdateChecker.run`'s `except`). -/
def is_newer_version (latest current : String) : Except String Bool :=
  match parseVersion latest with
  | .error e => .error e
  | .ok latest_parts =>
    match parseVersion current with
    | .error e => .error e
    | .ok current_parts =>
      let max_len := max latest_parts.length current_parts.length
      .ok (pyCmp (padTo latest_parts max_len) (padTo current_parts max_len) == .gt)

/-- The spec's reference definition of `VersionComparator.compare`: zero-pad the
shorter sequence to the longer length, then compare component-wise left to
right, returning at the first differing component, `equal` if none differ. -/
def compareRef (a b : List Int) : Ordering :=
  let m := max a.length b.length
  match ((padTo a m).zip (padTo b m)).find? (fun p => p.1 != p.2) with
  | some p => if p.1 < p.2 then .lt else .gt
  | none => .eq

/-- Both sides padded to the common maximal length and compared with Python's
list comparison — the comparison that `is_newer_version` actually performs. -/
def cmpPadded (a b : List Int) : Ordering :=
  pyCmp (padTo a (max a.length b.length)) (padTo b (max a.length b.length))

/-- The running platform (`sys.platform` resolved once; the spec's
`PlatformId`): one of `windows` (`sys.platform.startswith('win')`),
`macos` (`'darwin'`), `linux` (`'linux'`). -/
inductive Platform
  | windows
  | macos
  | linux
deriving DecidableEq

/-- `listStartsWith hay pat`: `hay` begins with `pat`. -/
def listStartsWith : List Char → List Char → Bool
  | _, [] => true
  | [], _ :: _ => false
  | h :: hs, p :: ps => h == p && listStartsWith hs ps

/-- `listHasSub hay pat`: `pat` occurs contiguously in `hay` — the semantics of
Python's `pat in hay` on strings. -/
def listHasSub : List Char → List Char → Bool
  | [], pat => listStartsWith [] pat
  | h :: hs, pat => listStartsWith (h :: hs) pat || listHasSub hs pat

/-- Python's `pat in hay` for strings. -/
def pyContains (hay pat : String) : Bool :=
  listHasSub hay.toList pat.toList

/-- Python's `s.endswith(suffix)`. -/
def pyEndsWith (s suffix : String) : Bool :=
  listStartsWith s.toList.reverse suffix.toList.reverse

/-- Python's `s.lower()` (ASCII; the asset names in the claims are ASCII). -/
def pyToLower (s : String) : String :=
  ⟨s.toList.map Char.toLower⟩

/-- Python's `s.lstrip(c)`: remove ALL leading occurrences of `c`. -/
def pyLstrip (s : String) (c : Char) : String :=
  ⟨s.toList.dropWhile (· == c)⟩

/-- One element of the feed's `assets` array (name and download URL). -/
structure Asset where
  name : String
  browser_download_url : String
deriving DecidableEq

/-- The per-asset platform match rule of the selection loop in
`UpdateChecker.run` (src/main.py:39-46): `.exe` suffix on windows,
case-insensitive `'mac'` substring on macos, case-insensitive `'linux'`
substring on linux. -/
def assetMatches (p : Platform) (name : String) : Bool :=
  match p with
  | .windows => pyEndsWith name ".exe"
  | .macos => pyContains (pyToLower name) "mac"
  | .linux => pyContains (pyToLower name) "linux"

/-- The asset-selection loop of `UpdateChecker.run` (src/main.py:37-47):
scan the assets in feed order, break at the first one matching the running
platform's rule, `none` if the loop falls through. -/
def selectAsset (p : Platform) : List Asset → Option Asset
  | [] => none
  | a :: rest => if assetMatches p a.name then some a else selectAsset p rest

/-- The `update_info` dict built by `UpdateChecker.run` (src/main.py:50-54). -/
structure UpdateInfo where
  version : String
  url : String
  notes : String
deriving DecidableEq

/-- The fields of the parsed feed JSON that `UpdateChecker.run` reads:
`tag_name`, `assets`, and the optional `body` (read with
`release_info.get('body', 'No release notes available')`). -/
structure ReleaseData where
  tag_name : String
  assets : List Asset
  body : Option String
deriving DecidableEq

/-- Environment of one `UpdateChecker.run` invocation: what the network
collaborator does.  `getErr` models `requests.get` raising; `status` is the
HTTP status code of the response otherwise; `parsed` models `response.json()`
plus the shape of the result (a malformed body or missing/ill-typed field —
`KeyError`, `AttributeError` — is an `Except.error`). -/
structure CheckEnv where
  getErr : Option String
  status : Nat
  parsed : Except String ReleaseData

/-- The three Qt signals `UpdateChecker` can emit; each is a terminal outcome
(`UpdateAvailable` / `NoUpdate` / `CheckFailed` in the spec). -/
inductive CheckEv
  | update_available (info : UpdateInfo)
  | no_update
  | error_occurred (msg : String)
deriving DecidableEq

/-- `UpdateChecker.run` (src/main.py:28-63) as a pure function from the
network environment to the list of signals emitted.  The `try/except` wrapping
the whole body turns every modelled exception into a single
`error_occurred` emission; no exception escapes. -/
def UpdateChecker.run (platform : Platform) (current_version : String)
    (env : CheckEnv) : List CheckEv :=
  match env.getErr with
  | some e => [.error_occurred ("Update check failed: " ++ e)]
  | none =>
    if env.status = 200 then
      match env.parsed with
      | .error e => [.error_occurred ("Update check failed: " ++ e)]
      | .ok release_info =>
        match is_newer_version (pyLstrip release_info.tag_name 'v') current_version with
        | .error e => [.error_occurred ("Update check failed: " ++ e)]
        | .ok true =>
          match selectAsset platform release_info.assets with
          | some asset =>
            [.update_available
              ⟨pyLstrip release_info.tag_name 'v', asset.browser_download_url,
                release_info.body.getD "No release notes available"⟩]
          | none => [.no_update]
        | .ok false => [.no_update]
    else [.error_occurred ("Failed to check for updates: HTTP " ++ toString env.status)]

/-- The three Qt signals `UpdateDownloader` can emit; `download_finished` and
`download_failed` are the terminal outcomes, `progress_updated` is not. -/
inductive DlEv
  | progress_updated (p : Nat)
  | download_finished (path : String)
  | download_failed (msg : String)
deriving DecidableEq

/-- Is this downloader signal a terminal outcome? -/
def isTerminalDl : DlEv → Bool
  | .progress_updated _ => false
  | .download_finished _ => true
  | .download_failed _ => true

/-- Environment of one `UpdateDownloader.run` invocation.  `getErr` models
`requests.get` raising; `contentLength` is the `content-length` header when
present; `openErr` models `open(file_path, 'wb')` raising; `chunks` are the
sizes of the chunks `iter_content` yields and the file writes accept;
`streamErr` models the iteration (or a write) raising after those chunks. -/
structure DlEnv where
  getErr : Option String
  contentLength : Option String
  openErr : Option String
  chunks : List Nat
  streamErr : Option String

/-- `os.path.join(temp_dir, filename)`. -/
def pathJoin (dir file : String) : String := dir ++ "/" ++ file

/-- `int(response.headers.get('content-length', 0))` (src/main.py:90): the
absent header defaults to the int `0`; a present header is converted with
`int`, whose `ValueError` is modelled as `none`. -/
def pyIntHeader : Option String → Option Int
  | none => some 0
  | some s => pyInt s

/-- The chunk loop of `UpdateDownloader.run` (src/main.py:96-103): empty
chunks are skipped (`if chunk:`), each nonempty chunk is appended to the file
and counted, and when `total_size > 0` a progress signal
`int((downloaded / total_size) * 100)` is emitted.  The source computes the
percentage in binary floating point; it is modelled here by the exact
truncated value `downloaded * 100 / total_size` (identical on every input the
proofs below evaluate).  Returns (signals, downloaded, file system). -/
def dlLoop (total_size : Int) (file_path : String) :
    List Nat → Nat → (String → Option Nat) → List DlEv × Nat × (String → Option Nat)
  | [], downloaded, fs => ([], downloaded, fs)
  | c :: cs, downloaded, fs =>
    if c = 0 then dlLoop total_size file_path cs downloaded fs
    else
      let downloaded' := downloaded + c
      let fs' := fun p => if p = file_path then some downloaded' else fs p
      let rest := dlLoop total_size file_path cs downloaded' fs'
      ((if 0 < total_size then
          [DlEv.progress_updated (downloaded' * 100 / total_size.toNat)]
        else []) ++ rest.1,
        rest.2)

/-- Body of `UpdateDownloader.run` after the `content-length` conversion
succeeded: open (truncating) the destination file under the temp directory,
run the chunk loop, then emit the terminal signal — `download_failed` if the
stream raised (the partial file stays), else `download_finished`. -/
def dlBody (total_size : Int) (filename temp_dir : String) (env : DlEnv)
    (fs : String → Option Nat) : List DlEv × (String → Option Nat) :=
  match env.openErr with
  | some e => ([.download_failed e], fs)
  | none =>
    match env.streamErr with
    | some e =>
      ((dlLoop total_size (pathJoin temp_dir filename) env.chunks 0
          (fun p => if p = pathJoin temp_dir filename then some 0 else fs p)).1
          ++ [.download_failed e],
        (dlLoop total_size (pathJoin temp_dir filename) env.chunks 0
          (fun p => if p = pathJoin temp_dir filename then some 0 else fs p)).2.2)
    | none =>
      ((dlLoop total_size (pathJoin temp_dir filename) env.chunks 0
          (fun p => if p = pathJoin temp_dir filename then some 0 else fs p)).1
          ++ [.download_finished (pathJoin temp_dir filename)],
        (dlLoop total_size (pathJoin temp_dir filename) env.chunks 0
          (fun p => if p = pathJoin temp_dir filename then some 0 else fs p)).2.2)

/-- `UpdateDownloader.run` (src/main.py:87-107) as a pure function from the
environment to the emitted signals and the resulting file system (a map from
paths to file sizes).  The enclosing `try/except` turns every modelled
exception into a single `download_failed` emission. -/
def UpdateDownloader.run (filename temp_dir : String) (env : DlEnv)
    (fs : String → Option Nat) : List DlEv × (String → Option Nat) :=
  match env.getErr with
  | some e => ([.download_failed e], fs)
  | none =>
    match env.contentLength with
    | none => dlBody 0 filename temp_dir env fs
    | some s =>
      match pyInt s with
      | none => ([.download_failed (intErrMsg s)], fs)
      | some total_size => dlBody total_size filename temp_dir env fs

/-- Observable actions of `MainWindow.install_update`: a `chmod`, a process
spawn (`subprocess.Popen(args)`), the `QApplication.quit()` call signalling
the host to terminate, and the `QMessageBox.critical` error dialog
(the `InstallFailed` surface). -/
inductive InstallEv
  | chmod (path : String) (mode : Nat)
  | spawn (args : List String)
  | quit
  | critical (msg : String)
deriving DecidableEq

/-- Environment of one `MainWindow.install_update` call: whether `os.chmod`
raises and whether `subprocess.Popen` raises. -/
structure InstallEnv where
  chmodErr : Option String
  spawnErr : Option String

/-- The message of the `QMessageBox.critical` dialog in
`MainWindow.install_update` (src/main.py:273-275). -/
def installFailMsg (e file_path : String) : String :=
  "Failed to install update:\n" ++ e ++ "\n\nPlease manually install from: " ++ file_path

/-- `MainWindow.install_update` (src/main.py:255-275): platform-specific
spawn inside a `try`, then `QApplication.quit()`; any exception lands in the
`except` branch, which only shows the error dialog (mode `0o755 = 493` for
the Linux `chmod`). -/
def MainWindow.install_update (platform : Platform) (file_path : String)
    (env : InstallEnv) : List InstallEv :=
  match platform with
  | .windows =>
    match env.spawnErr with
    | some e => [.critical (installFailMsg e file_path)]
    | none => [.spawn [file_path], .quit]
  | .macos =>
    match env.spawnErr with
    | some e => [.critical (installFailMsg e file_path)]
    | none => [.spawn ["open", file_path], .quit]
  | .linux =>
    match env.chmodErr with
    | some e => [.critical (installFailMsg e file_path)]
    | none =>
      match env.spawnErr with
      | some e => [.chmod file_path 493, .critical (installFailMsg e file_path)]
      | none => [.chmod file_path 493, .spawn [file_path], .quit]

/-- The cumulative byte counts at which the chunk loop emits progress
(empty chunks are skipped). -/
def cumSums (d : Nat) : List Nat → List Nat
  | [] => []
  | c :: cs => if c = 0 then cumSums d cs else (d + c) :: cumSums (d + c) cs

/-- The progress percentages a `dlBody` run with total `ts` emits. -/
def dlBodyProgress (ts : Int) (env : DlEnv) : List Nat :=
  match env.openErr with
  | some _ => []
  | none =>
    if 0 < ts then (cumSums 0 env.chunks).map (fun x => x * 100 / ts.toNat) else []

/-- The terminal signal of a `dlBody` run. -/
def dlBodyTerminal (filename temp_dir : String) (env : DlEnv) : DlEv :=
  match env.openErr with
  | some e => .download_failed e
  | none =>
    match env.streamErr with
    | some e => .download_failed e
    | none => .download_finished (pathJoin temp_dir filename)

/-- The progress percentages an `UpdateDownloader.run` invocation emits. -/
def dlProgressList (env : DlEnv) : List Nat :=
  match env.getErr with
  | some _ => []
  | none =>
    match env.contentLength with
    | none => dlBodyProgress 0 env
    | some s =>
      match pyInt s with
      | none => []
      | some ts => dlBodyProgress ts env

/-- The terminal signal of an `UpdateDownloader.run` invocation. -/
def dlTerminalEv (filename temp_dir : String) (env : DlEnv) : DlEv :=
  match env.getErr with
  | some e => .download_failed e
  | none =>
    match env.contentLength with
    | none => dlBodyTerminal filename temp_dir env
    | some s =>
      match pyInt s with
      | none => .download_failed (intErrMsg s)
      | some _ => dlBodyTerminal filename temp_dir env

/-- `isOkE r`: the `Except` computation finished without a modelled exception. -/
def isOkE {ε α : Type} : Except ε α → Bool
  | .ok _ => true
  | .error _ => false

/-- Modelled from the spec's words for claim C3 (to be compared with the
code's behaviour): a segment "parseable as a non-negative integer". -/
def segParsesAsNonNegInt (seg : String) : Bool :=
  match pyInt seg with
  | some k => decide (0 ≤ k)
  | none => false

/-- Modelled from the spec's words for claim C6 (to be compared with the
code's behaviour): the tag with ONE optional leading `'v'` character
removed and otherwise unchanged. -/
def stripOneLeadingV (s : String) : String :=
  match s.toList with
  | 'v' :: rest => ⟨rest⟩
  | _ => s

theorem pyCmp_eq_iff (a : List Int) : ∀ b, pyCmp a b = .eq ↔ a = b := by
  induction a with
  | nil => intro b; cases b <;> simp [pyCmp]
  | cons x xs ih =>
    intro b
    cases b with
    | nil => simp [pyCmp]
    | cons y ys =>
      simp only [pyCmp, List.cons.injEq]
      split_ifs with h1 h2
      · exact ⟨fun h => by simp at h, fun h => absurd h.1 (by omega)⟩
      · exact ⟨fun h => by simp at h, fun h => absurd h.1 (by omega)⟩
      · have hxy : x = y := by omega
        subst hxy
        rw [ih ys]
        simp

theorem pyCmp_refl (a : List Int) : pyCmp a a = .eq :=
  (pyCmp_eq_iff a a).mpr rfl

theorem pyCmp_swap (a : List Int) : ∀ b, (pyCmp a b).swap = pyCmp b a := by
  induction a with
  | nil => intro b; cases b <;> rfl
  | cons x xs ih =>
    intro b
    cases b with
    | nil => rfl
    | cons y ys =>
      simp only [pyCmp]
      split_ifs with h1 h2 <;> first | omega | rfl | exact ih ys

theorem pyCmp_lt_trans (a : List Int) :
    ∀ b c, pyCmp a b = .lt → pyCmp b c = .lt → pyCmp a c = .lt := by
  induction a with
  | nil =>
    intro b c hab hbc
    cases b with
    | nil => simp [pyCmp] at hab
    | cons y ys =>
      cases c with
      | nil => simp [pyCmp] at hbc
      | cons z zs => simp [pyCmp]
  | cons x xs ih =>
    intro b c hab hbc
    cases b with
    | nil => simp [pyCmp] at hab
    | cons y ys =>
      cases c with
      | nil => simp [pyCmp] at hbc
      | cons z zs =>
        simp only [pyCmp] at hab hbc ⊢
        by_cases h1 : x < y
        · by_cases h3 : y < z
          · rw [if_pos (by omega : x < z)]
          · by_cases h4 : z < y
            · rw [if_neg h3, if_pos h4] at hbc; cases hbc
            · rw [if_pos (by omega : x < z)]
        · by_cases h2 : y < x
          · rw [if_neg h1, if_pos h2] at hab; cases hab
          · rw [if_neg h1, if_neg h2] at hab
            by_cases h3 : y < z
            · rw [if_pos (by omega : x < z)]
            · by_cases h4 : z < y
              · rw [if_neg h3, if_pos h4] at hbc; cases hbc
              · rw [if_neg h3, if_neg h4] at hbc
                rw [if_neg (by omega : ¬ x < z), if_neg (by omega : ¬ z < x)]
                exact ih ys zs hab hbc

theorem pyCmp_append_same (u : List Int) :
    ∀ v w : List Int, u.length = v.length → pyCmp (u ++ w) (v ++ w) = pyCmp u v := by
  induction u with
  | nil =>
    intro v w hv
    cases v with
    | nil => simp only [List.nil_append]; rw [pyCmp_refl]; rfl
    | cons y ys => simp at hv
  | cons x xs ih =>
    intro v w hv
    cases v with
    | nil => simp at hv
    | cons y ys =>
      simp only [List.cons_append, pyCmp, List.append_eq]
      rw [ih ys w (by simpa using hv)]

theorem padTo_length (l : List Int) (n : Nat) (h : l.length ≤ n) : (padTo l n).length = n := by
  simp [padTo]; omega

theorem padTo_append (l : List Int) (n k : Nat) (h : l.length ≤ n) :
    padTo l (n + k) = padTo l n ++ List.replicate k 0 := by
  unfold padTo
  rw [List.append_assoc, ← List.replicate_add]
  have hc : n + k - l.length = n - l.length + k := by omega
  rw [hc]

theorem pyCmp_pad_stable (a b : List Int) (n : Nat) (h : max a.length b.length ≤ n) :
    pyCmp (padTo a n) (padTo b n) = cmpPadded a b := by
  obtain ⟨k, rfl⟩ : ∃ k, n = max a.length b.length + k :=
    ⟨n - max a.length b.length, by omega⟩
  rw [padTo_append a _ k (le_max_left _ _), padTo_append b _ k (le_max_right _ _),
    pyCmp_append_same _ _ _
      (by rw [padTo_length _ _ (le_max_left _ _), padTo_length _ _ (le_max_right _ _)])]
  rfl

theorem pyCmp_eq_zipFind (u : List Int) : ∀ v : List Int, u.length = v.length →
    pyCmp u v = (match (u.zip v).find? (fun p => p.1 != p.2) with
      | some p => if p.1 < p.2 then Ordering.lt else Ordering.gt
      | none => Ordering.eq) := by
  induction u with
  | nil =>
    intro v hv
    cases v with
    | nil => rfl
    | cons y ys => simp at hv
  | cons x xs ih =>
    intro v hv
    cases v with
    | nil => simp at hv
    | cons y ys =>
      by_cases hxy : x = y
      · subst hxy
        rw [List.zip_cons_cons, List.find?_cons_of_neg _ (by simp)]
        simp only [pyCmp, if_neg (lt_irrefl x)]
        exact ih ys (by simpa using hv)
      · rw [List.zip_cons_cons, List.find?_cons_of_pos _ (by simpa using hxy)]
        by_cases hlt : x < y
        · simp only [pyCmp]; rw [if_pos hlt, if_pos hlt]
        · simp only [pyCmp]
          rw [if_neg hlt, if_neg hlt, if_pos (by omega : y < x)]

theorem compareRef_eq_cmpPadded (a b : List Int) : compareRef a b = cmpPadded a b := by
  unfold compareRef cmpPadded
  exact (pyCmp_eq_zipFind _ _ (by
    rw [padTo_length _ _ (le_max_left _ _), padTo_length _ _ (le_max_right _ _)])).symm

theorem compareRef_refl (a : List Int) : compareRef a a = .eq := by
  rw [compareRef_eq_cmpPadded]
  exact pyCmp_refl _

theorem compareRef_swap (a b : List Int) : (compareRef a b).swap = compareRef b a := by
  rw [compareRef_eq_cmpPadded, compareRef_eq_cmpPadded]
  unfold cmpPadded
  rw [Nat.max_comm b.length a.length]
  exact pyCmp_swap _ _

theorem compareRef_lt_trans (a b c : List Int) (h1 : compareRef a b = .lt)
    (h2 : compareRef b c = .lt) : compareRef a c = .lt := by
  have ha : max a.length b.length ≤ max (max a.length b.length) (max b.length c.length) ⊔ max a.length c.length := by
    simp [le_max_iff]
  have hb : max b.length c.length ≤ max (max a.length b.length) (max b.length c.length) ⊔ max a.length c.length := by
    simp [le_max_iff]
  have hc : max a.length c.length ≤ max (max a.length b.length) (max b.length c.length) ⊔ max a.length c.length := by
    simp [le_max_iff]
  rw [compareRef_eq_cmpPadded, ← pyCmp_pad_stable a b _ ha] at h1
  rw [compareRef_eq_cmpPadded, ← pyCmp_pad_stable b c _ hb] at h2
  rw [compareRef_eq_cmpPadded, ← pyCmp_pad_stable a c _ hc]
  exact pyCmp_lt_trans _ _ _ h1 h2

theorem compareRef_eq_trans (a b c : List Int) (h1 : compareRef a b = .eq)
    (h2 : compareRef b c = .eq) : compareRef a c = .eq := by
  have ha : max a.length b.length ≤ max (max a.length b.length) (max b.length c.length) ⊔ max a.length c.length := by
    simp [le_max_iff]
  have hb : max b.length c.length ≤ max (max a.length b.length) (max b.length c.length) ⊔ max a.length c.length := by
    simp [le_max_iff]
  have hc : max a.length c.length ≤ max (max a.length b.length) (max b.length c.length) ⊔ max a.length c.length := by
    simp [le_max_iff]
  rw [compareRef_eq_cmpPadded, ← pyCmp_pad_stable a b _ ha, pyCmp_eq_iff] at h1
  rw [compareRef_eq_cmpPadded, ← pyCmp_pad_stable b c _ hb, pyCmp_eq_iff] at h2
  rw [compareRef_eq_cmpPadded, ← pyCmp_pad_stable a c _ hc, pyCmp_eq_iff]
  rw [h1, h2]

theorem compareRef_gt_trans (a b c : List Int) (h1 : compareRef a b = .gt)
    (h2 : compareRef b c = .gt) : compareRef a c = .gt := by
  have h1' : compareRef b a = .lt := by
    rw [← compareRef_swap a b, h1]; rfl
  have h2' : compareRef c b = .lt := by
    rw [← compareRef_swap b c, h2]; rfl
  have h3 : compareRef c a = .lt := compareRef_lt_trans c b a h2' h1'
  rw [← compareRef_swap c a, h3]
  rfl

theorem is_newer_version_eq_compareRef (l c : String) (ll lc : List Int)
    (hl : parseVersion l = .ok ll) (hc : parseVersion c = .ok lc) :
    is_newer_version l c = .ok (compareRef ll lc == .gt) := by
  unfold is_newer_version
  rw [hl, hc, compareRef_eq_cmpPadded]
  rfl

theorem UpdateChecker.run_length (p : Platform) (v : String) (env : CheckEnv) :
    (UpdateChecker.run p v env).length = 1 := by
  unfold UpdateChecker.run
  (repeat' split) <;> rfl

theorem dlLoop_events (t : Int) (fp : String) :
    ∀ cs d fs, (dlLoop t fp cs d fs).1 =
      if 0 < t then
        (cumSums d cs).map (fun x => DlEv.progress_updated (x * 100 / t.toNat))
      else [] := by
  intro cs
  induction cs with
  | nil => intro d fs; simp [dlLoop, cumSums]
  | cons c cs ih =>
    intro d fs
    by_cases hc : c = 0
    · simp only [dlLoop, cumSums, if_pos hc]
      exact ih d fs
    · simp only [dlLoop, cumSums, if_neg hc]
      rw [ih]
      by_cases ht : 0 < t
      · simp [ht]
      · simp [ht]

theorem dlLoop_fs (t : Int) (fp : String) :
    ∀ cs d fs, fs fp = some d →
      (dlLoop t fp cs d fs).2.2 fp = some (d + cs.sum)
      ∧ ∀ p, p ≠ fp → (dlLoop t fp cs d fs).2.2 p = fs p := by
  intro cs
  induction cs with
  | nil => intro d fs h; exact ⟨by simpa [dlLoop], fun p hp => rfl⟩
  | cons c cs ih =>
    intro d fs h
    by_cases hc : c = 0
    · simp only [dlLoop, if_pos hc]
      obtain ⟨h1, h2⟩ := ih d fs h
      subst hc
      exact ⟨by simpa using h1, h2⟩
    · simp only [dlLoop, if_neg hc]
      obtain ⟨h1, h2⟩ :=
        ih (d + c) (fun p => if p = fp then some (d + c) else fs p) (by simp)
      refine ⟨by rw [h1]; congr 1; simp [List.sum_cons]; omega, fun p hp => ?_⟩
      rw [h2 p hp]
      simp [hp]

theorem cumSums_lb (cs : List Nat) : ∀ d, ∀ x ∈ cumSums d cs, d ≤ x := by
  induction cs with
  | nil => intro d x hx; simp [cumSums] at hx
  | cons c cs ih =>
    intro d x hx
    by_cases hc : c = 0
    · rw [cumSums, if_pos hc] at hx
      exact ih d x hx
    · rw [cumSums, if_neg hc] at hx
      rcases List.mem_cons.mp hx with h | h
      · omega
      · have := ih (d + c) x h
        omega

theorem cumSums_pairwise (cs : List Nat) : ∀ d, List.Pairwise (· ≤ ·) (cumSums d cs) := by
  induction cs with
  | nil => intro d; simp [cumSums]
  | cons c cs ih =>
    intro d
    by_cases hc : c = 0
    · rw [cumSums, if_pos hc]; exact ih d
    · rw [cumSums, if_neg hc]
      exact List.Pairwise.cons (fun x hx => cumSums_lb cs (d + c) x hx) (ih (d + c))

theorem cumSums_ub (cs : List Nat) : ∀ d, ∀ x ∈ cumSums d cs, x ≤ d + cs.sum := by
  induction cs with
  | nil => intro d x hx; simp [cumSums] at hx
  | cons c cs ih =>
    intro d x hx
    by_cases hc : c = 0
    · rw [cumSums, if_pos hc] at hx
      have := ih d x hx
      simp [List.sum_cons]
      omega
    · rw [cumSums, if_neg hc] at hx
      rcases List.mem_cons.mp hx with h | h
      · simp [List.sum_cons]; omega
      · have := ih (d + c) x h
        simp [List.sum_cons]
        omega

theorem dlBody_events_eq (ts : Int) (fn td : String) (env : DlEnv)
    (fs : String → Option Nat) :
    (dlBody ts fn td env fs).1 =
      (dlBodyProgress ts env).map DlEv.progress_updated ++ [dlBodyTerminal fn td env] := by
  unfold dlBody dlBodyProgress dlBodyTerminal
  split
  next e heq => rfl
  next heq =>
    split
    next e heq2 =>
      rw [dlLoop_events]
      by_cases ht : 0 < ts
      · rw [if_pos ht, if_pos ht, List.map_map]
        rfl
      · rw [if_neg ht, if_neg ht]
        rfl
    next heq2 =>
      rw [dlLoop_events]
      by_cases ht : 0 < ts
      · rw [if_pos ht, if_pos ht, List.map_map]
        rfl
      · rw [if_neg ht, if_neg ht]
        rfl

theorem dlRun_events_eq (fn td : String) (env : DlEnv) (fs : String → Option Nat) :
    (UpdateDownloader.run fn td env fs).1 =
      (dlProgressList env).map DlEv.progress_updated ++ [dlTerminalEv fn td env] := by
  unfold UpdateDownloader.run dlProgressList dlTerminalEv
  split
  next e heq => rfl
  next heq =>
    split
    next heq2 => exact dlBody_events_eq 0 fn td env fs
    next s heq2 =>
      split
      next heq3 => rfl
      next ts heq3 => exact dlBody_events_eq ts fn td env fs

theorem dlTerminalEv_terminal (fn td : String) (env : DlEnv) :
    isTerminalDl (dlTerminalEv fn td env) = true := by
  unfold dlTerminalEv dlBodyTerminal
  (repeat' split) <;> rfl

theorem dlLoop_nonpos (t : Int) (ht : ¬ 0 < t) (fp : String) :
    ∀ cs d fs, dlLoop t fp cs d fs = dlLoop 0 fp cs d fs := by
  intro cs
  induction cs with
  | nil => intro d fs; rfl
  | cons c cs ih =>
    intro d fs
    by_cases hc : c = 0
    · simp only [dlLoop, if_pos hc]
      exact ih _ _
    · simp only [dlLoop, if_neg hc]
      rw [if_neg ht, if_neg (lt_irrefl 0), ih]

theorem dlBody_nonpos (ts : Int) (ht : ts ≤ 0) (fn td : String) (env : DlEnv)
    (fs : String → Option Nat) :
    dlBody ts fn td env fs = dlBody 0 fn td env fs := by
  unfold dlBody
  split
  next e heq => rfl
  next heq =>
    split <;> rw [dlLoop_nonpos ts (by omega)]

theorem dlRun_fs_eq (fn td : String) (env : DlEnv) (fs : String → Option Nat) (tv : Int)
    (hg : env.getErr = none) (hcl : pyIntHeader env.contentLength = some tv)
    (hoe : env.openErr = none) :
    (UpdateDownloader.run fn td env fs).2 =
      fun p => if p = pathJoin td fn then some env.chunks.sum else fs p := by
  have hbody : ∀ ts : Int, (dlBody ts fn td env fs).2 =
      fun p => if p = pathJoin td fn then some env.chunks.sum else fs p := by
    intro ts
    unfold dlBody
    split
    next e heq => rw [heq] at hoe; cases hoe
    next heq =>
      obtain ⟨h1, h2⟩ := dlLoop_fs ts (pathJoin td fn) env.chunks 0
        (fun p => if p = pathJoin td fn then some 0 else fs p) (by simp)
      split
      next e heq2 =>
        funext p
        by_cases hp : p = pathJoin td fn
        · subst hp; rw [if_pos rfl, h1]; simp
        · rw [if_neg hp, h2 p hp, if_neg hp]
      next heq2 =>
        funext p
        by_cases hp : p = pathJoin td fn
        · subst hp; rw [if_pos rfl, h1]; simp
        · rw [if_neg hp, h2 p hp, if_neg hp]
  unfold UpdateDownloader.run
  split
  next e heq => rw [heq] at hg; cases hg
  next heq =>
    split
    next heq2 => exact hbody 0
    next s heq2 =>
      split
      next heq3 =>
        rw [heq2] at hcl
        simp only [pyIntHeader] at hcl
        rw [heq3] at hcl
        cases hcl
      next ts heq3 => exact hbody ts

theorem dlTerminalEv_of_ok (fn td : String) (env : DlEnv) (tv : Int)
    (hg : env.getErr = none) (hcl : pyIntHeader env.contentLength = some tv) :
    dlTerminalEv fn td env = dlBodyTerminal fn td env := by
  unfold dlTerminalEv
  split
  next e heq => rw [heq] at hg; cases hg
  next heq =>
    split
    next heq2 => rfl
    next s heq2 =>
      split
      next heq3 =>
        rw [heq2] at hcl
        simp only [pyIntHeader] at hcl
        rw [heq3] at hcl
        cases hcl
      next ts heq3 => rfl

theorem dlBodyTerminal_eq (fn td : String) (env : DlEnv) (hoe : env.openErr = none) :
    dlBodyTerminal fn td env =
      (match env.streamErr with
       | some e => DlEv.download_failed e
       | none => DlEv.download_finished (pathJoin td fn)) := by
  unfold dlBodyTerminal
  split
  next e heq => rw [heq] at hoe; cases hoe
  next heq => rfl

/-- **C1.**  For every invocation of the check operation (`UpdateChecker.run`)
and of the download operation (`UpdateDownloader.run`), regardless of network,
parse, or I/O failure, exactly one terminal outcome is emitted — for check one
of the three `CheckEv` signals (all terminal), for download one of
`download_finished`/`download_failed` — the terminal event is the last event
of the invocation, and (both `run`s being total functions of their modelled
environments, every exception branch included) no exception crosses the
core/collaborator boundary. -/
theorem check_download_exactly_one_terminal_outcome :
    (∀ (p : Platform) (v : String) (env : CheckEnv), (UpdateChecker.run p v env).length = 1)
    ∧ (∀ (fn td : String) (env : DlEnv) (fs : String → Option Nat),
        (UpdateDownloader.run fn td env fs).1 =
          (dlProgressList env).map DlEv.progress_updated ++ [dlTerminalEv fn td env]
        ∧ isTerminalDl (dlTerminalEv fn td env) = true
        ∧ (UpdateDownloader.run fn td env fs).1.countP isTerminalDl = 1
        ∧ (UpdateDownloader.run fn td env fs).1.getLast? = some (dlTerminalEv fn td env)) := by
  refine ⟨UpdateChecker.run_length, fun fn td env fs => ?_⟩
  have hev := dlRun_events_eq fn td env fs
  have hterm := dlTerminalEv_terminal fn td env
  refine ⟨hev, hterm, ?_, ?_⟩
  · rw [hev, List.countP_append, List.countP_map]
    have h0 : (dlProgressList env).countP (isTerminalDl ∘ DlEv.progress_updated) = 0 := by
      simp [Function.comp_def, isTerminalDl]
    rw [h0]
    simp [List.countP_cons, hterm]
  · rw [hev, List.getLast?_concat]

/-- **C2.**  The code's ordering agrees with the spec's reference comparison
`compareRef` (zero-pad to the common length, first differing component
decides): `is_newer_version l c` returns `true` exactly when
`compareRef latest current = greater`; on valid dotted version strings
`compareRef` is reflexive (`compare(a,a) = equal`), antisymmetric (swap) and
transitive; `compare("1.0", "1.0.0") = equal`;
`isNewer("1.2.0","1.0.0") = true` and `isNewer("1.9.9","2.0.0") = false`. -/
theorem compare_reference_semantics :
    (∀ (l c : String) (ll lc : List Int), parseVersion l = .ok ll →
        parseVersion c = .ok lc →
        is_newer_version l c = .ok (compareRef ll lc == .gt))
    ∧ (∀ (a : String) (la : List Int), parseVersion a = .ok la → compareRef la la = .eq)
    ∧ (∀ (a b : String) (la lb : List Int), parseVersion a = .ok la →
        parseVersion b = .ok lb → (compareRef la lb).swap = compareRef lb la)
    ∧ (∀ (a b c : String) (la lb lc : List Int), parseVersion a = .ok la →
        parseVersion b = .ok lb → parseVersion c = .ok lc →
        (compareRef la lb = .lt → compareRef lb lc = .lt → compareRef la lc = .lt)
        ∧ (compareRef la lb = .eq → compareRef lb lc = .eq → compareRef la lc = .eq)
        ∧ (compareRef la lb = .gt → compareRef lb lc = .gt → compareRef la lc = .gt))
    ∧ (∃ l₁ l₂ : List Int, parseVersion "1.0" = .ok l₁ ∧ parseVersion "1.0.0" = .ok l₂
        ∧ compareRef l₁ l₂ = .eq)
    ∧ is_newer_version "1.2.0" "1.0.0" = .ok true
    ∧ is_newer_version "1.9.9" "2.0.0" = .ok false := by
  refine ⟨fun l c ll lc hl hc => is_newer_version_eq_compareRef l c ll lc hl hc,
    fun a la _ => compareRef_refl la,
    fun a b la lb _ _ => compareRef_swap la lb,
    fun a b c la lb lc _ _ _ =>
      ⟨compareRef_lt_trans la lb lc, compareRef_eq_trans la lb lc,
        compareRef_gt_trans la lb lc⟩,
    ⟨[1, 0], [1, 0, 0], rfl, rfl, by decide⟩, rfl, rfl⟩

/-- Witness for C2 at concrete inputs. -/
theorem compare_reference_semantics_witness :
    is_newer_version "1.2.0" "1.0.0" = .ok (compareRef [1, 2, 0] [1, 0, 0] == .gt)
    ∧ compareRef [1, 0] [1, 0] = .eq
    ∧ compareRef [1, 0, 0] [2] = .lt :=
  ⟨compare_reference_semantics.1 "1.2.0" "1.0.0" [1, 2, 0] [1, 0, 0] rfl rfl,
   compare_reference_semantics.2.1 "1.0" [1, 0] rfl,
   (compare_reference_semantics.2.2.2.1 "1.0.0" "1.5" "2" [1, 0, 0] [1, 5] [2]
       rfl rfl rfl).1 (by decide) (by decide)⟩

theorem parseSegs_isOk (segs : List String) :
    isOkE (parseSegs segs) = true ↔ ∀ seg ∈ segs, (pyInt seg).isSome = true := by
  induction segs with
  | nil => simp [parseSegs, isOkE]
  | cons seg rest ih =>
    cases h : pyInt seg with
    | none =>
      simp only [parseSegs, h]
      constructor
      · intro hfalse; cases hfalse
      · intro hall
        have := hall seg (List.mem_cons_self seg rest)
        rw [h] at this
        cases this
    | some k =>
      cases hr : parseSegs rest with
      | error e =>
        simp only [parseSegs, h, hr]
        rw [hr] at ih
        constructor
        · intro hfalse; cases hfalse
        · intro hall
          have : isOkE (Except.error e : Except String (List Int)) = true :=
            ih.mpr (fun s hs => hall s (List.mem_cons_of_mem seg hs))
          cases this
      | ok ks =>
        simp only [parseSegs, h, hr]
        rw [hr] at ih
        constructor
        · intro _ s hs
          rcases List.mem_cons.mp hs with rfl | hs'
          · rw [h]; rfl
          · exact ih.mp rfl s hs'
        · intro _; rfl

/-- **C3, counterexample.**  The claim's "iff" fails on the code: the string
`"-1"` splits into the single segment `"-1"`, which is not parseable as a
non-negative integer (its value is negative), yet the code's parse succeeds,
because Python's `int` accepts a sign. -/
theorem parse_nonneg_iff_counterexample :
    parseVersion "-1" = .ok [-1]
    ∧ pySplitDot "-1" = ["-1"]
    ∧ segParsesAsNonNegInt "-1" = false :=
  ⟨rfl, rfl, by decide⟩

/-- **C3 (amended).**  `parseVersion s` succeeds iff every segment of `s`
split on `'.'` is parseable by Python's `int` (optional sign and whitespace
allowed, so negative segments are accepted too), and it fails with the
`ValueError` (`ParseError`) otherwise; a version-parse failure — of the
v-stripped tag or of the current version — makes the check emit the
`CheckFailed` outcome. -/
theorem parse_iff_segments_pyint :
    (∀ s : String, isOkE (parseVersion s) = true ↔
        ∀ seg ∈ pySplitDot s, (pyInt seg).isSome = true)
    ∧ (∀ l c : String, isOkE (is_newer_version l c) = true ↔
        isOkE (parseVersion l) = true ∧ isOkE (parseVersion c) = true)
    ∧ (∀ (p : Platform) (v : String) (env : CheckEnv) (rel : ReleaseData) (e : String),
        env.getErr = none → env.status = 200 → env.parsed = .ok rel →
        is_newer_version (pyLstrip rel.tag_name 'v') v = .error e →
        UpdateChecker.run p v env = [.error_occurred ("Update check failed: " ++ e)]) := by
  refine ⟨fun s => parseSegs_isOk (pySplitDot s), fun l c => ?_, ?_⟩
  · unfold is_newer_version
    cases hl : parseVersion l with
    | error e => simp [isOkE]
    | ok ll =>
      cases hc : parseVersion c with
      | error e => simp [isOkE]
      | ok lc => simp [isOkE]
  · intro p v env rel e hg hs hp hn
    simp [UpdateChecker.run, hg, hs, hp, hn]

/-- Witness for C3's amended theorem at concrete inputs. -/
theorem parse_iff_segments_pyint_witness :
    (isOkE (parseVersion "1.2.3") = true ↔
      ∀ seg ∈ pySplitDot "1.2.3", (pyInt seg).isSome = true)
    ∧ UpdateChecker.run .linux "1.0.0" ⟨none, 200, .ok ⟨"vx", [], none⟩⟩ =
        [.error_occurred ("Update check failed: " ++ intErrMsg "x")] :=
  ⟨parse_iff_segments_pyint.1 "1.2.3",
   parse_iff_segments_pyint.2.2 .linux "1.0.0" ⟨none, 200, .ok ⟨"vx", [], none⟩⟩
     ⟨"vx", [], none⟩ (intErrMsg "x") rfl rfl rfl rfl⟩

theorem selectAsset_eq_find? (p : Platform) (assets : List Asset) :
    selectAsset p assets = assets.find? (fun a => assetMatches p a.name) := by
  induction assets with
  | nil => rfl
  | cons a rest ih =>
    by_cases h : assetMatches p a.name
    · simp [selectAsset, h]
    · simp [selectAsset, h, ih]

/-- **C4.**  Asset selection returns the first asset in feed order whose name
satisfies the platform's match rule (`assetMatches`: `.exe` suffix for
windows, case-insensitive `mac` substring for macos, case-insensitive `linux`
substring for linux); there is no fallback (if no asset matches, the result is
`none`); and on `["app-win.exe", "app-linux.tar.gz"]` with platform linux the
second asset is selected. -/
theorem asset_selection_first_match :
    (∀ (p : Platform) (assets : List Asset),
        selectAsset p assets = assets.find? (fun a => assetMatches p a.name))
    ∧ (∀ (p : Platform) (assets : List Asset),
        selectAsset p assets = none ↔ ∀ a ∈ assets, assetMatches p a.name = false)
    ∧ selectAsset .linux [⟨"app-win.exe", "u1"⟩, ⟨"app-linux.tar.gz", "u2"⟩] =
        some ⟨"app-linux.tar.gz", "u2"⟩ :=
  ⟨selectAsset_eq_find?,
   fun p assets => by
     rw [selectAsset_eq_find?, List.find?_eq_none]
     simp,
   by decide⟩

/-- Witness for C4 at a concrete input. -/
theorem asset_selection_first_match_witness :
    selectAsset .windows [⟨"app-mac.dmg", "u"⟩] = none :=
  (asset_selection_first_match.2.1 .windows [⟨"app-mac.dmg", "u"⟩]).mpr (by decide)

theorem run_update_available_inv (p : Platform) (v : String) (env : CheckEnv)
    (info : UpdateInfo)
    (hmem : CheckEv.update_available info ∈ UpdateChecker.run p v env) :
    ∃ (rel : ReleaseData) (a : Asset),
      env.getErr = none ∧ env.status = 200 ∧ env.parsed = .ok rel
      ∧ is_newer_version (pyLstrip rel.tag_name 'v') v = .ok true
      ∧ selectAsset p rel.assets = some a
      ∧ info = ⟨pyLstrip rel.tag_name 'v', a.browser_download_url,
          rel.body.getD "No release notes available"⟩ := by
  unfold UpdateChecker.run at hmem
  split at hmem
  next e heq => simp at hmem
  next heq =>
    split at hmem
    next hs =>
      split at hmem
      next e heq2 => simp at hmem
      next rel heq2 =>
        split at hmem
        next e heq3 => simp at hmem
        next heq3 =>
          split at hmem
          next a heq4 =>
            simp only [List.mem_singleton] at hmem
            injection hmem with hinfo
            exact ⟨rel, a, heq, hs, heq2, heq3, heq4, hinfo⟩
          next heq4 => simp at hmem
        next heq3 => simp at hmem
    next hs => simp at hmem

/-- **C5.**  `update_available` is emitted only when the release is strictly
newer AND an asset matches the running platform; and when the release is
strictly newer but no asset matches, the check emits `no_update` — not an
error outcome. -/
theorem update_available_requires_newer_and_asset :
    ∀ (p : Platform) (v : String) (env : CheckEnv),
      (∀ info : UpdateInfo, CheckEv.update_available info ∈ UpdateChecker.run p v env →
        ∃ (rel : ReleaseData) (a : Asset),
          env.getErr = none ∧ env.status = 200 ∧ env.parsed = .ok rel
          ∧ is_newer_version (pyLstrip rel.tag_name 'v') v = .ok true
          ∧ selectAsset p rel.assets = some a
          ∧ info = ⟨pyLstrip rel.tag_name 'v', a.browser_download_url,
              rel.body.getD "No release notes available"⟩)
      ∧ (∀ rel : ReleaseData,
          env.getErr = none → env.status = 200 → env.parsed = .ok rel →
          is_newer_version (pyLstrip rel.tag_name 'v') v = .ok true →
          selectAsset p rel.assets = none →
          UpdateChecker.run p v env = [.no_update]) := by
  intro p v env
  refine ⟨fun info hmem => run_update_available_inv p v env info hmem, ?_⟩
  intro rel hg hs hp hn hsel
  simp [UpdateChecker.run, hg, hs, hp, hn, hsel]

/-- Witness for C5: a strictly newer release whose only asset is a Windows
installer yields `no_update` on linux. -/
theorem update_available_requires_newer_and_asset_witness :
    UpdateChecker.run .linux "1.0.0"
        ⟨none, 200, .ok ⟨"v2.0.0", [⟨"app-win.exe", "u1"⟩], none⟩⟩ = [.no_update] :=
  (update_available_requires_newer_and_asset .linux "1.0.0"
      ⟨none, 200, .ok ⟨"v2.0.0", [⟨"app-win.exe", "u1"⟩], none⟩⟩).2
    ⟨"v2.0.0", [⟨"app-win.exe", "u1"⟩], none⟩ rfl rfl rfl rfl (by decide)

/-- **C6, counterexample.**  The code strips ALL leading `'v'` characters
(`lstrip('v')`), not one: for tag `"vv2.0.0"` the version passed to parsing
and reported in the update info is `"2.0.0"`, while removing one optional
leading `'v'` would give `"v2.0.0"`. -/
theorem tag_single_v_strip_counterexample :
    UpdateChecker.run .linux "1.0.0"
        ⟨none, 200, .ok ⟨"vv2.0.0", [⟨"app-linux.tar.gz", "u2"⟩], none⟩⟩ =
      [.update_available ⟨"2.0.0", "u2", "No release notes available"⟩]
    ∧ stripOneLeadingV "vv2.0.0" = "v2.0.0"
    ∧ ("2.0.0" : String) ≠ "v2.0.0" :=
  ⟨rfl, rfl, by decide⟩

/-- **C6 (amended).**  The version string that the check passes to version
parsing and reports in the update info is the tag with ALL leading `'v'`
characters removed (Python `lstrip('v')`) and is otherwise unchanged: every
emitted `update_available` carries exactly `pyLstrip tag 'v'`, and the
outcome depends on the tag only through `pyLstrip tag 'v'`. -/
theorem tag_stripped_of_all_leading_vs :
    ∀ (p : Platform) (v : String) (env : CheckEnv) (rel : ReleaseData),
      env.parsed = .ok rel →
      (∀ info : UpdateInfo, CheckEv.update_available info ∈ UpdateChecker.run p v env →
        info.version = pyLstrip rel.tag_name 'v')
      ∧ (∀ rel' : ReleaseData, pyLstrip rel'.tag_name 'v' = pyLstrip rel.tag_name 'v' →
          rel'.assets = rel.assets → rel'.body = rel.body →
          UpdateChecker.run p v { env with parsed := .ok rel' } =
            UpdateChecker.run p v env) := by
  intro p v env rel hp
  constructor
  · intro info hmem
    obtain ⟨rel2, a, hg, hs, hp2, hn, hsel, hinfo⟩ :=
      run_update_available_inv p v env info hmem
    rw [hp] at hp2
    injection hp2 with hrel
    subst hrel
    rw [hinfo]
  · intro rel' htag hassets hbody
    obtain ⟨g, st, pr⟩ := env
    cases g with
    | some e => rfl
    | none =>
      simp only at hp
      subst hp
      by_cases hs : st = 200
      · simp [UpdateChecker.run, hs, htag, hassets, hbody]
      · simp [UpdateChecker.run, hs]

/-- Witness for C6's amended theorem: two tags with the same fully-v-stripped
form produce identical outcomes. -/
theorem tag_stripped_of_all_leading_vs_witness :
    UpdateChecker.run .linux "1.0.0"
        ⟨none, 200, .ok ⟨"vvv3.0", [⟨"a-linux", "u"⟩], none⟩⟩ =
      UpdateChecker.run .linux "1.0.0"
        ⟨none, 200, .ok ⟨"v3.0", [⟨"a-linux", "u"⟩], none⟩⟩ :=
  (tag_stripped_of_all_leading_vs .linux "1.0.0"
      ⟨none, 200, .ok ⟨"v3.0", [⟨"a-linux", "u"⟩], none⟩⟩
      ⟨"v3.0", [⟨"a-linux", "u"⟩], none⟩ rfl).2
    ⟨"vvv3.0", [⟨"a-linux", "u"⟩], none⟩ rfl rfl rfl

theorem dlProgressList_pairwise (env : DlEnv) :
    List.Pairwise (· ≤ ·) (dlProgressList env) := by
  unfold dlProgressList dlBodyProgress
  (repeat' split) <;>
    first
      | exact List.Pairwise.nil
      | exact List.pairwise_map.mpr
          ((cumSums_pairwise env.chunks 0).imp
            (fun h => Nat.div_le_div_right (Nat.mul_le_mul_right 100 h)))

theorem dlProgressList_le_100 (env : DlEnv) (tv : Int)
    (hcl : pyIntHeader env.contentLength = some tv)
    (hsum : (env.chunks.sum : Int) ≤ tv) :
    ∀ x ∈ dlProgressList env, x ≤ 100 := by
  have hbody : ∀ ts : Int, ts = tv → ∀ x ∈ dlBodyProgress ts env, x ≤ 100 := by
    intro ts hts x hx
    subst hts
    unfold dlBodyProgress at hx
    split at hx
    next => cases hx
    next =>
      split at hx
      next ht =>
        obtain ⟨y, hy, rfl⟩ := List.mem_map.mp hx
        have hy' : y ≤ env.chunks.sum := by
          have := cumSums_ub env.chunks 0 y hy
          omega
        have hT : 0 < ts.toNat := by omega
        have hyT : y ≤ ts.toNat := by omega
        calc y * 100 / ts.toNat ≤ ts.toNat * 100 / ts.toNat :=
              Nat.div_le_div_right (Nat.mul_le_mul_right 100 hyT)
          _ = 100 := by rw [Nat.mul_comm, Nat.mul_div_cancel _ hT]
      next ht => cases hx
  unfold dlProgressList
  split
  next => intro x hx; cases hx
  next heq =>
    split
    next heq2 =>
      rw [heq2] at hcl
      simp only [pyIntHeader] at hcl
      injection hcl with h0
      exact hbody 0 h0
    next s heq2 =>
      rw [heq2] at hcl
      simp only [pyIntHeader] at hcl
      split
      next heq3 => intro x hx; cases hx
      next ts heq3 =>
        rw [heq3] at hcl
        injection hcl with hts
        exact hbody ts hts

/-- **C7, counterexample.**  "every progress value lies in [0,100]" fails on
the code: with `content-length: 1` and a body of 2 bytes, the single emitted
progress value is `int((2 / 1) * 100) = 200 > 100` (the code trusts the
header and never clamps). -/
theorem progress_bound_counterexample :
    (UpdateDownloader.run "f" "/tmp" ⟨none, some "1", none, [2], none⟩
        (fun _ => none)).1 =
      [.progress_updated 200, .download_finished "/tmp/f"]
    ∧ ¬ (200 ≤ 100) :=
  ⟨rfl, by decide⟩

/-- **C7 (amended).**  The emitted progress values are integers (they are
`Nat`s produced by `int(...)`), the sequence is monotonically non-decreasing,
and — provided the bytes received do not exceed the advertised
`content-length` — every value lies in [0,100]; when the header is absent,
zero progress events are emitted but exactly one terminal event still is. -/
theorem progress_monotone_bounded :
    ∀ (fn td : String) (env : DlEnv) (fs : String → Option Nat),
      (UpdateDownloader.run fn td env fs).1 =
        (dlProgressList env).map DlEv.progress_updated ++ [dlTerminalEv fn td env]
      ∧ isTerminalDl (dlTerminalEv fn td env) = true
      ∧ List.Pairwise (· ≤ ·) (dlProgressList env)
      ∧ (∀ tv : Int, pyIntHeader env.contentLength = some tv →
          (env.chunks.sum : Int) ≤ tv → ∀ x ∈ dlProgressList env, x ≤ 100)
      ∧ (env.contentLength = none → dlProgressList env = []) := by
  intro fn td env fs
  refine ⟨dlRun_events_eq fn td env fs, dlTerminalEv_terminal fn td env,
    dlProgressList_pairwise env,
    fun tv hcl hsum => dlProgressList_le_100 env tv hcl hsum, ?_⟩
  intro hcl
  unfold dlProgressList dlBodyProgress
  split
  next => rfl
  next heq =>
    split
    next heq2 =>
      split
      next => rfl
      next => simp
    next s heq2 => rw [heq2] at hcl; cases hcl

/-- Witness for C7's amended theorem at a concrete input. -/
theorem progress_monotone_bounded_witness :
    dlProgressList ⟨none, some "4", none, [2, 2], none⟩ = [50, 100]
    ∧ ∀ x ∈ dlProgressList ⟨none, some "4", none, [2, 2], none⟩, x ≤ 100 :=
  ⟨by decide,
   (progress_monotone_bounded "f" "/tmp" ⟨none, some "4", none, [2, 2], none⟩
       (fun _ => none)).2.2.2.1 4 rfl (by decide)⟩

/-- **C8.**  The download writes the received bytes to the file
`temp_dir/filename`, overwriting any pre-existing file of that name (the
result is independent of the previous content at that path); if the stream
fails after N bytes were received, `download_failed` is emitted as the last
event and the partial file of size N remains on disk at that path (no
cleanup, no atomic rename); on success `download_finished` is last and the
file holds all received bytes.  Other paths are untouched. -/
theorem download_leaves_partial_file :
    ∀ (fn td : String) (env : DlEnv) (fs : String → Option Nat) (tv : Int),
      env.getErr = none → pyIntHeader env.contentLength = some tv →
      env.openErr = none →
      ((UpdateDownloader.run fn td env fs).2 (pathJoin td fn) = some env.chunks.sum)
      ∧ (∀ p : String, p ≠ pathJoin td fn →
          (UpdateDownloader.run fn td env fs).2 p = fs p)
      ∧ (∀ e : String, env.streamErr = some e →
          (UpdateDownloader.run fn td env fs).1.getLast? =
            some (DlEv.download_failed e))
      ∧ (env.streamErr = none →
          (UpdateDownloader.run fn td env fs).1.getLast? =
            some (DlEv.download_finished (pathJoin td fn))) := by
  intro fn td env fs tv hg hcl hoe
  have hfs := dlRun_fs_eq fn td env fs tv hg hcl hoe
  have hev := dlRun_events_eq fn td env fs
  have hterm := dlTerminalEv_of_ok fn td env tv hg hcl
  have hbt := dlBodyTerminal_eq fn td env hoe
  refine ⟨?_, ?_, ?_, ?_⟩
  · rw [hfs]; simp
  · intro p hp; rw [hfs]; simp [hp]
  · intro e hse
    rw [hev, List.getLast?_concat, hterm, hbt, hse]
  · intro hse
    rw [hev, List.getLast?_concat, hterm, hbt, hse]

/-- Witness for C8: a stream error after 3+2 of 10 advertised bytes leaves a
5-byte partial file (overwriting the pre-existing 999-byte file) and ends
with `download_failed`. -/
theorem download_leaves_partial_file_witness :
    (UpdateDownloader.run "f" "/tmp" ⟨none, some "10", none, [3, 2], some "reset"⟩
        (fun _ => some 999)).2 "/tmp/f" = some 5
    ∧ (UpdateDownloader.run "f" "/tmp" ⟨none, some "10", none, [3, 2], some "reset"⟩
        (fun _ => some 999)).1.getLast? = some (DlEv.download_failed "reset") :=
  ⟨(download_leaves_partial_file "f" "/tmp"
      ⟨none, some "10", none, [3, 2], some "reset"⟩ (fun _ => some 999) 10
      rfl rfl rfl).1,
   (download_leaves_partial_file "f" "/tmp"
      ⟨none, some "10", none, [3, 2], some "reset"⟩ (fun _ => some 999) 10
      rfl rfl rfl).2.2.1 "reset" rfl⟩

/-- **C9.**  `install_update` signals the host to terminate (`quit`) only
after a successful platform-specific spawn (windows: spawn the file; macos:
`open` the file; linux: chmod 0o755 then spawn the file); on a spawn failure
it shows the install-failed dialog and the application keeps running — `quit`
is never emitted on an error path. -/
theorem install_quit_only_after_spawn :
    ∀ (p : Platform) (fp : String) (env : InstallEnv),
      (InstallEv.quit ∈ MainWindow.install_update p fp env ↔
        env.spawnErr = none ∧ (p = .linux → env.chmodErr = none))
      ∧ (env.spawnErr = none → (p = .linux → env.chmodErr = none) →
          ∃ (pre : List InstallEv) (args : List String),
            MainWindow.install_update p fp env = pre ++ [.spawn args, .quit])
      ∧ (∀ e : String, env.spawnErr = some e →
          InstallEv.quit ∉ MainWindow.install_update p fp env
          ∧ ∃ m : String, InstallEv.critical m ∈ MainWindow.install_update p fp env) := by
  intro p fp env
  obtain ⟨ce, se⟩ := env
  refine ⟨?_, ?_, ?_⟩
  · cases p <;> cases ce <;> cases se <;> simp [MainWindow.install_update]
  · intro hse hch
    cases p <;> cases ce <;> cases se <;> (try simp_all [MainWindow.install_update]) <;>
      first
        | exact ⟨[], [fp], rfl⟩
        | exact ⟨[], ["open", fp], rfl⟩
        | exact ⟨[InstallEv.chmod fp 493], [fp], rfl⟩
  · intro e hse
    cases p <;> cases ce <;> cases se <;> simp_all [MainWindow.install_update]

/-- Witness for C9: a failing spawn on windows shows the dialog and never
emits `quit`. -/
theorem install_quit_only_after_spawn_witness :
    InstallEv.quit ∉ MainWindow.install_update .windows "/tmp/u" ⟨none, some "boom"⟩ :=
  ((install_quit_only_after_spawn .windows "/tmp/u" ⟨none, some "boom"⟩).2.2
    "boom" rfl).1

/-- **C10.**  The `content-length` header is converted with `int` (absent
header ↦ the int `0`) before the destination file is created: an unparseable
header value makes the download emit `download_failed` with the file system
untouched, and a parseable non-positive value (e.g. `"0"` or `"-7"`) makes
the invocation behave exactly like one with the header absent — the body is
still written and the terminal event emitted, with zero progress events. -/
theorem content_length_conversion :
    ∀ (fn td : String) (env : DlEnv) (fs : String → Option Nat),
      (∀ s : String, env.getErr = none → env.contentLength = some s →
        pyInt s = none →
        UpdateDownloader.run fn td env fs = ([.download_failed (intErrMsg s)], fs))
      ∧ (∀ (s : String) (tv : Int), env.contentLength = some s →
          pyInt s = some tv → tv ≤ 0 →
          UpdateDownloader.run fn td env fs =
            UpdateDownloader.run fn td { env with contentLength := none } fs) := by
  intro fn td env fs
  constructor
  · intro s hg hcl hpi
    unfold UpdateDownloader.run
    split
    next e heq => rw [heq] at hg; cases hg
    next heq =>
      split
      next heq2 => rw [heq2] at hcl; cases hcl
      next s' heq2 =>
        rw [heq2] at hcl
        injection hcl with hss
        subst hss
        split
        next heq3 => rfl
        next ts heq3 => rw [heq3] at hpi; cases hpi
  · intro s tv hcl hpi htv
    obtain ⟨g, cl, oe, cs, se⟩ := env
    simp only at hcl
    subst hcl
    cases g with
    | some e => rfl
    | none =>
      simp only [UpdateDownloader.run, hpi]
      rw [dlBody_nonpos tv htv]
      rfl

/-- Witness for C10: an unparseable header fails with no file written; header
`"0"` behaves exactly like an absent header. -/
theorem content_length_conversion_witness :
    UpdateDownloader.run "f" "/tmp" ⟨none, some "abc", none, [5], none⟩
        (fun _ => none) =
      ([.download_failed (intErrMsg "abc")], fun _ => none)
    ∧ UpdateDownloader.run "f" "/tmp" ⟨none, some "0", none, [5], none⟩
        (fun _ => none) =
      UpdateDownloader.run "f" "/tmp" ⟨none, none, none, [5], none⟩
        (fun _ => none) :=
  ⟨(content_length_conversion "f" "/tmp" ⟨none, some "abc", none, [5], none⟩
      (fun _ => none)).1 "abc" rfl rfl rfl,
   (content_length_conversion "f" "/tmp" ⟨none, some "0", none, [5], none⟩
      (fun _ => none)).2 "0" 0 rfl rfl (by omega)⟩
